import Mathlib

/-!
Verification development for the sx repository (a command-line metasearch
client). The definitions below are a shallow embedding of the Go source:

- src/backends/interface.go   : SearchResult, SearchOptions, SearchBackend
- src/backends/manager.go     : Manager (registry, primary, fallback dispatch)
- src/search.go               : time-range validation and expansion
- the Brave backend           : request-parameter computation (count, offset)
- src/main.go                 : runSearch result-buffer growth loop and the
                                interactive session command loop

Go functions returning (value, error) are embedded as Except String, the
string being the Go error message (err.Error()). Backend Search behaviour is
a pure function supplied per backend, matching the mockBackend pattern used
by the repository tests; network effects are abstracted into that function.
Go int is embedded as Int (no arithmetic in the claims approaches the 64-bit
boundary).
-/

/-- One search hit, from src/backends/interface.go (struct SearchResult).
Only the fields that some embedded operation writes or reads are kept
(title, url, content, engine, engines); the remaining optional metadata
fields (category, publishedDate, author, geo fields, torrent fields, ...)
are carried opaquely by the Go code and never consulted by the dispatch,
growth or interactive logic embedded here. -/
structure SearchResult where
  title : String
  url : String
  content : String
  engine : String
  engines : List String
deriving DecidableEq, Repr

/-- Parameters of one query, from src/backends/interface.go (struct
SearchOptions). -/
structure SearchOptions where
  query : String
  categories : List String
  engines : List String
  language : String
  timeRange : String
  site : String
  safeSearch : String
  pageNo : Int
  numResults : Int
deriving DecidableEq, Repr

/-- A search backend, from the SearchBackend interface in
src/backends/interface.go: a stable name, a cheap availability check, and a
Search function. The (results, error) pair of Go is an Except whose error
carries the message text. This mirrors the mockBackend used by the
repository tests in manager_test: a fixed name, availability flag, and a
response that does not depend on hidden state. -/
structure Backend where
  name : String
  isAvailable : Bool
  search : SearchOptions → Except String (List SearchResult)

/-- The backend manager, from src/backends/manager.go (struct Manager).
The Go registry is a map keyed by Backend.Name; it is embedded as a list of
backends looked up by name (the claims never depend on map iteration
order). -/
structure Manager where
  primary : Option Backend
  fallbacks : List Backend
  registry : List Backend

/-- Registry lookup, the embedding of the Go map read m.registry[name]. -/
def Manager.lookup (m : Manager) (n : String) : Option Backend :=
  m.registry.find? (fun b => b.name == n)

/-- Comma-separated registered names, from Manager.availableNames
(manager.go line 121); used in error messages only. Go map iteration order
is unspecified, the embedding fixes registration order. -/
def Manager.availableNames (m : Manager) : String :=
  String.intercalate ", " (m.registry.map Backend.name)

/-- The fallback loop of Manager.Search (manager.go lines 63-80),
instrumented with the list of backend names on which Search was actually
invoked (second component). An unavailable fallback contributes a skip note
and is never invoked; the first fallback that succeeds short-circuits; if
the list is exhausted the accumulated messages are joined into the
aggregated error, exactly as fmt.Errorf("all backends failed:\n  %s",
strings.Join(errors, "\n  ")) does. -/
def searchFallbacksT : List Backend → SearchOptions → List String →
    Except String (List SearchResult × String) × List String
  | [], _, errs =>
    (Except.error ("all backends failed:\n  " ++ String.intercalate "\n  " errs), [])
  | fb :: rest, opts, errs =>
    if fb.isAvailable then
      match fb.search opts with
      | Except.ok rs => (Except.ok (rs, fb.name), [fb.name])
      | Except.error e =>
        let r := searchFallbacksT rest opts (errs ++ [e])
        (r.1, fb.name :: r.2)
    else
      searchFallbacksT rest opts (errs ++ [fb.name ++ ": not configured"])

/-- Manager.Search (manager.go lines 52-81), instrumented with the list of
backend names invoked. Returns the results together with the name of the
backend that produced them, or the aggregated error. -/
def Manager.searchT (m : Manager) (opts : SearchOptions) :
    Except String (List SearchResult × String) × List String :=
  match m.primary with
  | none => (Except.error "no primary backend configured", [])
  | some p =>
    match p.search opts with
    | Except.ok rs => (Except.ok (rs, p.name), [p.name])
    | Except.error e =>
      let r := searchFallbacksT m.fallbacks opts [e]
      (r.1, p.name :: r.2)

/-- Manager.Search proper: the result component of the instrumented
version. -/
def Manager.search (m : Manager) (opts : SearchOptions) :
    Except String (List SearchResult × String) :=
  (m.searchT opts).1

/-- The message each fallback contributes to the aggregated error of
Manager.Search: its own error message when it was available (and, under the
all-fail hypothesis, failed; the ok branch is unreachable there and yields a
dummy), or the synthetic skip note for an unavailable backend
(manager.go lines 67-77). -/
def fallbackNote (opts : SearchOptions) (fb : Backend) : String :=
  if fb.isAvailable then
    match fb.search opts with
    | Except.ok _ => ""
    | Except.error e => e
  else fb.name ++ ": not configured"

/-- The loop body of Manager.SetFallbacks (manager.go lines 40-46): resolve
each name in turn, appending to the fallback list, and stop with an error at
the first unknown name. The manager state mirrors the in-place mutation of
the Go receiver. -/
def setFallbacksLoop : Manager → List String → Manager × Option String
  | m, [] => (m, none)
  | m, n :: rest =>
    match m.lookup n with
    | some b => setFallbacksLoop { m with fallbacks := m.fallbacks ++ [b] } rest
    | none =>
      (m, some ("unknown fallback backend: " ++ n ++ " (available: "
        ++ m.availableNames ++ ")"))

/-- Manager.SetFallbacks (manager.go lines 38-48): the Go code first clears
the fallback list (m.fallbacks = nil) and then runs the resolution loop. -/
def Manager.setFallbacks (m : Manager) (names : List String) :
    Manager × Option String :=
  setFallbacksLoop { m with fallbacks := [] } names

/-- A concrete result used by witnesses and counterexamples, in the shape
of the fixtures of manager_test. -/
def sampleResult : SearchResult :=
  { title := "Result 1", url := "https://example.com", content := ""
    engine := "", engines := [] }

/-- Concrete options used by witnesses, as in the repository tests. -/
def optsMock : SearchOptions :=
  { query := "test", categories := [], engines := [], language := ""
    timeRange := "", site := "", safeSearch := "", pageNo := 1
    numResults := 10 }

/-- A primary backend that succeeds with one result. -/
def primaryStub : Backend :=
  { name := "primary", isAvailable := true
    search := fun _ => Except.ok [sampleResult] }

/-- A fallback backend that would succeed with no results. -/
def fallbackStub : Backend :=
  { name := "fallback", isAvailable := true, search := fun _ => Except.ok [] }

/-- Manager whose primary succeeds, with a fallback configured. -/
def mgrPrimaryOk : Manager :=
  { primary := some primaryStub, fallbacks := [fallbackStub]
    registry := [primaryStub, fallbackStub] }

/-- A primary backend that fails. -/
def primaryDown : Backend :=
  { name := "primary", isAvailable := true
    search := fun _ => Except.error "primary down" }

/-- An unconfigured fallback (IsAvailable false). -/
def fbUnconfigured : Backend :=
  { name := "fb0", isAvailable := false, search := fun _ => Except.ok [] }

/-- An available fallback that fails. -/
def fbFailing : Backend :=
  { name := "fb1", isAvailable := true
    search := fun _ => Except.error "fb1 down" }

/-- An available fallback that succeeds. -/
def fbOk : Backend :=
  { name := "fb2", isAvailable := true
    search := fun _ => Except.ok [sampleResult] }

/-- Manager with a failing primary, one unconfigured fallback, one failing
fallback, and a succeeding last fallback. -/
def mgrChain : Manager :=
  { primary := some primaryDown
    fallbacks := [fbUnconfigured, fbFailing, fbOk]
    registry := [primaryDown, fbUnconfigured, fbFailing, fbOk] }

/-- Manager along whose whole chain every backend fails or is
unavailable. -/
def mgrAllFail : Manager :=
  { primary := some primaryDown
    fallbacks := [fbFailing, fbUnconfigured]
    registry := [primaryDown, fbFailing, fbUnconfigured] }

/-- A registry backend used by the SetFallbacks scenarios. -/
def backendAlpha : Backend :=
  { name := "alpha", isAvailable := true, search := fun _ => Except.ok [] }

/-- Manager with one registered backend and an empty fallback list. -/
def mgrCex : Manager :=
  { primary := none, fallbacks := [], registry := [backendAlpha] }

/-- Valid long time-range tokens, from src/search.go line 12. -/
def timeRangeOptions : List String := ["day", "week", "month", "year"]

/-- Valid short time-range tokens, from src/search.go line 13. -/
def timeRangeShortOptions : List String := ["d", "w", "m", "y"]

/-- validateTimeRange from src/search.go lines 136-148: a token is valid
when it occurs in either options list. -/
def validateTimeRange (t : String) : Bool :=
  timeRangeOptions.contains t || timeRangeShortOptions.contains t

/-- expandTimeRange from src/search.go lines 150-163: the switch mapping
shorthands to full tokens, defaulting to the input itself. -/
def expandTimeRange (t : String) : String :=
  if t = "d" then "day"
  else if t = "w" then "week"
  else if t = "m" then "month"
  else if t = "y" then "year"
  else t

/-- The count and offset query parameters the Brave backend computes; the
offset is none when the parameter is omitted from the request. -/
structure BraveParams where
  count : Int
  offset : Option Int
deriving DecidableEq, Repr

/-- The parameter computation of BraveBackend.Search (lines 79-90 of the
Brave backend source): clamp the requested count into 1..20 with default
10, and emit an offset of (pageNo - 1) * count only when pageNo exceeds
1. -/
def braveParams (opts : SearchOptions) : BraveParams :=
  let count0 := opts.numResults
  let count := if count0 ≤ 0 ∨ count0 > 20 then 10 else count0
  { count := count
    offset := if opts.pageNo > 1 then some ((opts.pageNo - 1) * count) else none }

/-- The per-run session state threaded through runSearch and
handleInteractiveSession in src/main.go: the current query, the active
time-range and site filter of the search options, the provider page cursor
(searchOpts.PageNo), the display offset (startAt), the accumulated result
buffer (allResults), and the two display toggles. -/
structure Session where
  query : String
  timeRange : String
  site : String
  pageNo : Int
  startAt : Int
  buffer : List SearchResult
  expand : Bool
  debug : Bool
deriving DecidableEq, Repr

/-- The dispatcher as seen by the session: performSearch specialised to the
fields the growth loop varies (query, time range, site filter, page
number). Network effects are abstracted into this pure response
function. -/
def Fetcher : Type :=
  String → String → String → Int → Except String (List SearchResult)

/-- The buffer-growth loop of runSearch (src/main.go lines 298-319),
instrumented with the list of page numbers actually fetched. The recursion
of the Go while loop is driven here by an explicit iteration bound: the
loop body grows the buffer by at least one entry per iteration, so the Go
loop performs at most (startAt + resultCount - length buffer) iterations,
and grow below instantiates the bound with exactly that measure; when the
bound is zero the guard is false as well, so both exits agree (the lemma
growAux_fuel_congr certifies the bound is immaterial beyond the measure).
One iteration: if the buffer already covers startAt + resultCount, stop;
otherwise fetch the current page; an error aborts the search; an empty
page stops growth without error and without appending; otherwise append,
and stop when resultCount is zero, else advance the page cursor and
continue. -/
def growAux (f : Fetcher) (rc : Int) : Nat → Session → Except String (Session × List Int)
  | 0, s => Except.ok (s, [])
  | fuel + 1, s =>
    if (s.buffer.length : Int) < s.startAt + rc then
      match f s.query s.timeRange s.site s.pageNo with
      | Except.error e => Except.error e
      | Except.ok results =>
        if results.length = 0 then Except.ok (s, [s.pageNo])
        else
          if rc = 0 then Except.ok ({ s with buffer := s.buffer ++ results }, [s.pageNo])
          else
            match growAux f rc fuel
              { s with buffer := s.buffer ++ results, pageNo := s.pageNo + 1 } with
            | Except.error e => Except.error e
            | Except.ok (s2, pages) => Except.ok (s2, s.pageNo :: pages)
    else Except.ok (s, [])

/-- The buffer-growth step: growAux at the measure of the Go loop. -/
def grow (f : Fetcher) (rc : Int) (s : Session) : Except String (Session × List Int) :=
  growAux f rc (s.startAt + rc - (s.buffer.length : Int)).toNat s

/-- One line of interactive input, after the dispatch of the switch in
handleInteractiveSession (src/main.go lines 448-555): quit tokens; help;
page navigation n, p, f; the two display toggles x and d; a time-range
command r with its argument; a site: command with its argument; c and j
with an index; a numeric input naming an in-range result to open; any
other non-empty input as a brand-new query. -/
inductive Command where
  | quit
  | help
  | next
  | prev
  | first
  | toggleExpand
  | toggleDebug
  | timeRange (arg : String)
  | siteFilter (arg : String)
  | copyUrl (index : Int)
  | showJson (index : Int)
  | openIndex (index : Int)
  | newQuery (text : String)
deriving DecidableEq, Repr

/-- Outcome of one interactive command: leave the loop (quit or stream
end), keep looping on the updated session, or return to runSearch for a
fetch cycle with the updated session (the return true paths). -/
inductive StepAction where
  | quit
  | stay (s : Session)
  | fetch (s : Session)
deriving DecidableEq, Repr

/-- One iteration of handleInteractiveSession (src/main.go lines 448-555)
on an already-dispatched command. Printing is not modelled; commands whose
whole effect is output (help, c, j, opening a URL, an invalid index or an
invalid time range message) leave the session unchanged. -/
def step (rc : Int) (s : Session) : Command → StepAction
  | Command.quit => StepAction.quit
  | Command.help => StepAction.stay s
  | Command.next =>
    let st := s.startAt + rc
    if st ≥ (s.buffer.length : Int) then
      StepAction.fetch { s with startAt := st, pageNo := s.pageNo + 1 }
    else StepAction.stay { s with startAt := st }
  | Command.prev =>
    let st := s.startAt - rc
    StepAction.stay { s with startAt := if st < 0 then 0 else st }
  | Command.first => StepAction.stay { s with startAt := 0 }
  | Command.toggleExpand => StepAction.stay { s with expand := !s.expand }
  | Command.toggleDebug => StepAction.stay { s with debug := !s.debug }
  | Command.timeRange arg =>
    if validateTimeRange arg then
      StepAction.fetch
        { s with timeRange := expandTimeRange arg, startAt := 0, pageNo := 1, buffer := [] }
    else StepAction.stay s
  | Command.siteFilter arg =>
    StepAction.fetch { s with site := arg, startAt := 0, pageNo := 1, buffer := [] }
  | Command.copyUrl _ => StepAction.stay s
  | Command.showJson _ => StepAction.stay s
  | Command.openIndex _ => StepAction.stay s
  | Command.newQuery q =>
    StepAction.fetch { s with query := q, startAt := 0, pageNo := 1, buffer := [] }

/-- A scripted interactive run, instrumented with every page number
fetched: each command is stepped; a fetch action re-enters the growth loop
of runSearch, after which an empty buffer ends the run (the no-results
early return of runSearch, lines 321-324), as does a search error (lines
302-305). -/
def runCommandsT (f : Fetcher) (rc : Int) : Session → List Command → Session × List Int
  | s, [] => (s, [])
  | s, c :: cs =>
    match step rc s c with
    | StepAction.quit => (s, [])
    | StepAction.stay s1 => runCommandsT f rc s1 cs
    | StepAction.fetch s1 =>
      match grow f rc s1 with
      | Except.error _ => (s1, [])
      | Except.ok (s2, pages) =>
        if s2.buffer.isEmpty then (s2, pages)
        else
          let r := runCommandsT f rc s2 cs
          (r.1, pages ++ r.2)

/-- A scripted interactive run, final session only. -/
def runCommands (f : Fetcher) (rc : Int) (s : Session) (cs : List Command) : Session :=
  (runCommandsT f rc s cs).1

/-- The session state runSearch starts from (lines 293-295): page number
1, display offset 0, empty buffer. -/
def initSession (q tr w : String) : Session :=
  { query := q, timeRange := tr, site := w, pageNo := 1, startAt := 0
    buffer := [], expand := false, debug := false }

/-- A dispatcher whose page 1 holds one result and every further page is
empty, for the pagination scenarios. -/
def fetchOnePage : Fetcher :=
  fun _ _ _ p => if p = 1 then Except.ok [sampleResult] else Except.ok []

/-- Fresh session for the pagination scenarios. -/
def scenarioStart : Session := initSession "golang" "" ""

/-- The session after the initial growth of scenarioStart against
fetchOnePage with one requested result: one buffered result, page cursor
2. -/
def scenarioS1 : Session :=
  { scenarioStart with buffer := [sampleResult], pageNo := 2 }

/-- Session holding one result, used by the negative-offset scenario. -/
def sessionOneResult : Session :=
  { query := "x", timeRange := "", site := "", pageNo := 2, startAt := 0
    buffer := [sampleResult], expand := false, debug := false }

theorem lookup_update (m : Manager) (fbs : List Backend) (x : String) :
    Manager.lookup { m with fallbacks := fbs } x = m.lookup x := rfl

theorem availableNames_update (m : Manager) (fbs : List Backend) :
    Manager.availableNames { m with fallbacks := fbs } = m.availableNames := rfl

/-- Helper: the fallback loop on a chain whose prefix fails or is skipped
and whose next entry succeeds returns the results and name of that entry,
invokes exactly the available members of the prefix, in order, then the
succeeding entry. -/
theorem searchFallbacksT_first_success (opts : SearchOptions) (fk : Backend)
    (rs : List SearchResult) (hkA : fk.isAvailable = true)
    (hk : fk.search opts = Except.ok rs) :
    ∀ (pre : List Backend) (post : List Backend) (errs : List String),
      (∀ fb ∈ pre, fb.isAvailable = true → ∃ e, fb.search opts = Except.error e) →
      searchFallbacksT (pre ++ fk :: post) opts errs
        = (Except.ok (rs, fk.name),
           (pre.filter (fun fb => fb.isAvailable)).map Backend.name ++ [fk.name]) := by
  intro pre
  induction pre with
  | nil =>
    intro post errs _
    simp [searchFallbacksT, hkA, hk]
  | cons fb rest ih =>
    intro post errs hpre
    have hreq : ∀ b ∈ rest, b.isAvailable = true → ∃ e, b.search opts = Except.error e :=
      fun b hb h => hpre b (List.mem_cons_of_mem _ hb) h
    by_cases hav : fb.isAvailable = true
    · obtain ⟨e, he⟩ := hpre fb (List.mem_cons_self _ _) hav
      simp only [List.cons_append, searchFallbacksT, hav, if_true, he, List.append_eq]
      rw [ih post (errs ++ [e]) hreq]
      simp [hav]
    · have hav2 : fb.isAvailable = false := by simpa using hav
      simp only [List.cons_append, searchFallbacksT, hav2, Bool.false_eq_true, if_false,
        List.append_eq]
      rw [ih post (errs ++ [fb.name ++ ": not configured"]) hreq]
      simp [hav2]

/-- Helper: when every fallback is unavailable or fails, the loop returns
the aggregated error whose message joins the accumulated messages and then
one note per fallback in declared order. -/
theorem searchFallbacksT_all_fail (opts : SearchOptions) :
    ∀ (fbs : List Backend) (errs : List String),
      (∀ fb ∈ fbs, fb.isAvailable = true → ∃ e, fb.search opts = Except.error e) →
      (searchFallbacksT fbs opts errs).1
        = Except.error ("all backends failed:\n  "
            ++ String.intercalate "\n  " (errs ++ fbs.map (fallbackNote opts))) := by
  intro fbs
  induction fbs with
  | nil => intro errs _; simp [searchFallbacksT]
  | cons fb rest ih =>
    intro errs hall
    have hreq : ∀ b ∈ rest, b.isAvailable = true → ∃ e, b.search opts = Except.error e :=
      fun b hb h => hall b (List.mem_cons_of_mem _ hb) h
    by_cases hav : fb.isAvailable = true
    · obtain ⟨e, he⟩ := hall fb (List.mem_cons_self _ _) hav
      simp only [searchFallbacksT, hav, if_true, he]
      rw [ih (errs ++ [e]) hreq]
      simp [fallbackNote, hav, he]
    · have hav2 : fb.isAvailable = false := by simpa using hav
      simp only [searchFallbacksT, hav2, Bool.false_eq_true, if_false]
      rw [ih (errs ++ [fb.name ++ ": not configured"]) hreq]
      simp [fallbackNote, hav2]

/-- C1: with a primary backend set, when the Search of the primary
succeeds, Manager.Search returns exactly the result list of the primary
with the primary name and no error, and the invocation trace is just the
primary: no fallback backend is invoked. -/
theorem manager_search_primary_short_circuits (m : Manager) (p : Backend)
    (opts : SearchOptions) (rs : List SearchResult)
    (hp : m.primary = some p) (hok : p.search opts = Except.ok rs) :
    m.search opts = Except.ok (rs, p.name) ∧ (m.searchT opts).2 = [p.name] := by
  have h : m.searchT opts = (Except.ok (rs, p.name), [p.name]) := by
    simp only [Manager.searchT, hp, hok]
  exact ⟨by simp only [Manager.search, h], by rw [h]⟩

/-- Witness for C1 on a concrete manager: the single result of the primary
comes back under the primary name, and only the primary was invoked. -/
theorem manager_search_primary_short_circuits_w :
    mgrPrimaryOk.search optsMock = Except.ok ([sampleResult], "primary")
      ∧ (mgrPrimaryOk.searchT optsMock).2 = ["primary"] :=
  manager_search_primary_short_circuits mgrPrimaryOk primaryStub optsMock
    [sampleResult] rfl rfl

/-- C2: when the primary fails and the fallback chain is a prefix of
backends that are each unavailable or failing, followed by an available
succeeding backend, Manager.Search returns the results and name of that
last backend,
and the invocation trace is the primary, then each available prefix member
exactly once in order (unavailable ones are skipped without a call), then
the succeeding backend, where it stops. -/
theorem manager_search_fallback_chain (m : Manager) (p fk : Backend)
    (opts : SearchOptions) (e : String) (pre post : List Backend)
    (rs : List SearchResult)
    (hp : m.primary = some p) (he : p.search opts = Except.error e)
    (hfb : m.fallbacks = pre ++ fk :: post)
    (hpre : ∀ fb ∈ pre, fb.isAvailable = true → ∃ err, fb.search opts = Except.error err)
    (hkA : fk.isAvailable = true) (hk : fk.search opts = Except.ok rs) :
    m.search opts = Except.ok (rs, fk.name)
      ∧ (m.searchT opts).2
          = p.name :: ((pre.filter (fun fb => fb.isAvailable)).map Backend.name
              ++ [fk.name]) := by
  have h : m.searchT opts
      = (Except.ok (rs, fk.name),
         p.name :: ((pre.filter (fun fb => fb.isAvailable)).map Backend.name
           ++ [fk.name])) := by
    simp only [Manager.searchT, hp, he, hfb,
      searchFallbacksT_first_success opts fk rs hkA hk pre post [e] hpre]
  exact ⟨by simp only [Manager.search, h], by rw [h]⟩

/-- Witness for C2 on a concrete chain: primary fails, fb0 is unconfigured
and skipped, fb1 fails, fb2 succeeds; the results come back as those of fb2 and
exactly primary, fb1, fb2 were invoked. -/
theorem manager_search_fallback_chain_w :
    mgrChain.search optsMock = Except.ok ([sampleResult], "fb2")
      ∧ (mgrChain.searchT optsMock).2 = ["primary", "fb1", "fb2"] :=
  manager_search_fallback_chain mgrChain primaryDown fbOk optsMock
    "primary down" [fbUnconfigured, fbFailing] [] [sampleResult]
    rfl rfl rfl
    (by
      intro fb hfb hav
      simp only [List.mem_cons, List.not_mem_nil, or_false] at hfb
      rcases hfb with h | h
      · subst h; cases hav
      · subst h; exact ⟨"fb1 down", rfl⟩)
    rfl rfl

/-- C3: when the primary fails and every fallback is unavailable or fails,
Manager.Search returns no results and a single error whose message is the
text all backends failed, a colon, then one line per chain member in
declared order: the primary failure message first, then per fallback its
own error message or its not-configured skip note; in particular the message extends
the text all backends failed. -/
theorem manager_search_all_fail (m : Manager) (p : Backend)
    (opts : SearchOptions) (e : String)
    (hp : m.primary = some p) (he : p.search opts = Except.error e)
    (hall : ∀ fb ∈ m.fallbacks, fb.isAvailable = true →
      ∃ err, fb.search opts = Except.error err) :
    m.search opts = Except.error ("all backends failed:\n  "
        ++ String.intercalate "\n  " (e :: m.fallbacks.map (fallbackNote opts)))
      ∧ ∃ rest, ("all backends failed:\n  "
          ++ String.intercalate "\n  " (e :: m.fallbacks.map (fallbackNote opts)))
          = "all backends failed" ++ rest := by
  constructor
  · have h := searchFallbacksT_all_fail opts m.fallbacks [e] hall
    simp only [Manager.search, Manager.searchT, hp, he]
    simpa using h
  · refine ⟨":\n  " ++ String.intercalate "\n  " (e :: m.fallbacks.map (fallbackNote opts)),
      ?_⟩
    rw [← String.append_assoc]
    congr 1

/-- Witness for C3 on a concrete manager: the aggregated message lists the
primary failure, the message of the failing fallback and the skip note of
the unconfigured fallback, one per indented line, in declared order. -/
theorem manager_search_all_fail_w :
    mgrAllFail.search optsMock
        = Except.error "all backends failed:\n  primary down\n  fb1 down\n  fb0: not configured"
      ∧ ∃ rest,
        "all backends failed:\n  primary down\n  fb1 down\n  fb0: not configured"
          = "all backends failed" ++ rest := by
  have h := manager_search_all_fail mgrAllFail primaryDown optsMock "primary down"
    rfl rfl
    (by
      intro fb hfb hav
      simp only [mgrAllFail, List.mem_cons, List.not_mem_nil, or_false] at hfb
      rcases hfb with h | h
      · subst h; exact ⟨"fb1 down", rfl⟩
      · subst h; cases hav)
  exact h

/-- Helper: the SetFallbacks loop on a name list whose prefix resolves and
whose next entry is unknown returns the error and a manager whose fallback
list is the accumulator extended by the resolved prefix. -/
theorem setFallbacksLoop_resolved (m : Manager) (n : String) (rest : List String)
    (hn : m.lookup n = none) :
    ∀ (pre : List String) (acc : List Backend),
      (∀ x ∈ pre, (m.lookup x).isSome = true) →
      setFallbacksLoop { m with fallbacks := acc } (pre ++ n :: rest)
        = ({ m with fallbacks := acc ++ pre.filterMap (fun x => m.lookup x) },
           some ("unknown fallback backend: " ++ n ++ " (available: "
             ++ m.availableNames ++ ")")) := by
  intro pre
  induction pre with
  | nil =>
    intro acc _
    simp [setFallbacksLoop, lookup_update, hn, availableNames_update]
  | cons x pre ih =>
    intro acc hpre
    obtain ⟨b, hb⟩ := Option.isSome_iff_exists.mp (hpre x (List.mem_cons_self _ _))
    simp only [List.cons_append, setFallbacksLoop, lookup_update, hb, List.append_eq]
    rw [ih (acc ++ [b]) (fun y hy => hpre y (List.mem_cons_of_mem _ hy))]
    simp [hb, List.filterMap_cons, List.append_assoc]

/-- C4 counterexample: on the manager with registry alpha and an empty
fallback list, SetFallbacks with the list alpha, missing returns an error
but the fallback list after the call is alpha, not the empty list it held
before the call: the claim that the list is left unchanged on error is
false. -/
theorem setFallbacks_changes_list_cex :
    ((mgrCex.setFallbacks ["alpha", "missing"]).2.isSome = true)
      ∧ ¬ ((mgrCex.setFallbacks ["alpha", "missing"]).1.fallbacks.map Backend.name
            = mgrCex.fallbacks.map Backend.name) :=
  ⟨by decide, by decide⟩

/-- C4 (amended): SetFallbacks with a list containing an unknown name
returns an error, but first clears the previous fallback list and installs
the backends resolved from the longest prefix of names before the first
unknown one (partial application on error, prior list discarded). -/
theorem setFallbacks_error_installs_resolved (m : Manager) (pre : List String)
    (n : String) (rest : List String)
    (hpre : ∀ x ∈ pre, (m.lookup x).isSome = true) (hn : m.lookup n = none) :
    ((m.setFallbacks (pre ++ n :: rest)).2.isSome = true)
      ∧ (m.setFallbacks (pre ++ n :: rest)).1.fallbacks
          = pre.filterMap (fun x => m.lookup x) := by
  unfold Manager.setFallbacks
  rw [setFallbacksLoop_resolved m n rest hn pre [] hpre]
  simp

/-- Witness for the amended C4: the concrete call resolves alpha, then
fails on missing, leaving exactly the resolved prefix installed. -/
theorem setFallbacks_error_installs_resolved_w :
    ((mgrCex.setFallbacks (["alpha"] ++ "missing" :: [])).2.isSome = true)
      ∧ (mgrCex.setFallbacks (["alpha"] ++ "missing" :: [])).1.fallbacks
          = ["alpha"].filterMap (fun x => mgrCex.lookup x) :=
  setFallbacks_error_installs_resolved mgrCex ["alpha"] "missing" []
    (by decide) (by rfl)

/-- C9: time-range expansion maps d to day, w to week, m to month, y to
year, leaves every other token unchanged, and is idempotent: expanding an
already-expanded token returns it unchanged. -/
theorem expandTimeRange_pure :
    expandTimeRange "d" = "day" ∧ expandTimeRange "w" = "week"
      ∧ expandTimeRange "m" = "month" ∧ expandTimeRange "y" = "year"
      ∧ (∀ t : String, ¬ t = "d" → ¬ t = "w" → ¬ t = "m" → ¬ t = "y" →
          expandTimeRange t = t)
      ∧ (∀ t : String, expandTimeRange (expandTimeRange t) = expandTimeRange t) := by
  refine ⟨rfl, rfl, rfl, rfl, ?_, ?_⟩
  · intro t h1 h2 h3 h4
    simp [expandTimeRange, h1, h2, h3, h4]
  · intro t
    by_cases h1 : t = "d"
    · subst h1; decide
    by_cases h2 : t = "w"
    · subst h2; decide
    by_cases h3 : t = "m"
    · subst h3; decide
    by_cases h4 : t = "y"
    · subst h4; decide
    simp [expandTimeRange, h1, h2, h3, h4]

/-- Witness for C9: an already-expanded token passes through unchanged and
expansion of a shorthand is idempotent. -/
theorem expandTimeRange_pure_w :
    expandTimeRange "week" = "week"
      ∧ expandTimeRange (expandTimeRange "m") = expandTimeRange "m" :=
  ⟨expandTimeRange_pure.2.2.2.2.1 "week" (by decide) (by decide) (by decide)
      (by decide),
   expandTimeRange_pure.2.2.2.2.2 "m"⟩

/-- C8: the Brave backend sends count equal to NumResults exactly when it
lies in 1..20 and 10 otherwise, and sends offset (pageNo - 1) times the
clamped count exactly when pageNo exceeds 1, omitting the parameter when
pageNo is at most 1. -/
theorem braveParams_clamp_offset (opts : SearchOptions) :
    (1 ≤ opts.numResults → opts.numResults ≤ 20 →
        (braveParams opts).count = opts.numResults)
      ∧ ((opts.numResults < 1 ∨ 20 < opts.numResults) →
          (braveParams opts).count = 10)
      ∧ (1 < opts.pageNo →
          (braveParams opts).offset
            = some ((opts.pageNo - 1) * (braveParams opts).count))
      ∧ (opts.pageNo ≤ 1 → (braveParams opts).offset = none) := by
  refine ⟨?_, ?_, ?_, ?_⟩ <;> intro h
  · intro h2
    simp only [braveParams]
    rw [if_neg (by omega)]
  · simp only [braveParams]
    rw [if_pos (by omega)]
  · simp only [braveParams]
    rw [if_pos (by omega)]
  · simp only [braveParams]
    rw [if_neg (by omega)]

/-- Witness for C8: five requested results on page three give count 5 and
offset 10; page one omits the offset; a zero request clamps to 10. -/
theorem braveParams_clamp_offset_w :
    (braveParams { optsMock with numResults := 5, pageNo := 3 }).count = 5
      ∧ (braveParams { optsMock with numResults := 0, pageNo := 1 }).count = 10
      ∧ (braveParams { optsMock with numResults := 5, pageNo := 3 }).offset
          = some ((3 - 1) * (braveParams { optsMock with numResults := 5, pageNo := 3 }).count)
      ∧ (braveParams { optsMock with numResults := 5, pageNo := 1 }).offset = none :=
  ⟨(braveParams_clamp_offset { optsMock with numResults := 5, pageNo := 3 }).1
      (by decide) (by decide),
   (braveParams_clamp_offset { optsMock with numResults := 0, pageNo := 1 }).2.1
      (Or.inl (by decide)),
   (braveParams_clamp_offset { optsMock with numResults := 5, pageNo := 3 }).2.2.1
      (by decide),
   (braveParams_clamp_offset { optsMock with numResults := 5, pageNo := 1 }).2.2.2
      (by decide)⟩

/-- Helper: the iteration bound of growAux is immaterial beyond the loop
measure: any two bounds at least the measure give the same outcome, so grow
faithfully renders the unbounded Go loop. -/
theorem growAux_fuel_congr (f : Fetcher) (rc : Int) :
    ∀ (n1 : Nat) (s : Session) (n2 : Nat),
      (s.startAt + rc - (s.buffer.length : Int)).toNat ≤ n1 →
      (s.startAt + rc - (s.buffer.length : Int)).toNat ≤ n2 →
      growAux f rc n1 s = growAux f rc n2 s := by
  intro n1
  induction n1 with
  | zero =>
    intro s n2 h1 h2
    have hg : ¬ ((s.buffer.length : Int) < s.startAt + rc) := by omega
    cases n2 with
    | zero => rfl
    | succ b => simp [growAux, hg]
  | succ a ih =>
    intro s n2 h1 h2
    by_cases hg : (s.buffer.length : Int) < s.startAt + rc
    · have hpos : 0 < (s.startAt + rc - (s.buffer.length : Int)).toNat := by omega
      cases n2 with
      | zero => omega
      | succ b =>
        simp only [growAux, if_pos hg]
        cases hf : f s.query s.timeRange s.site s.pageNo with
        | error e => rfl
        | ok results =>
          dsimp only
          by_cases hres : results.length = 0
          · rw [if_pos hres, if_pos hres]
          · rw [if_neg hres, if_neg hres]
            by_cases hrc : rc = 0
            · rw [if_pos hrc, if_pos hrc]
            · rw [if_neg hrc, if_neg hrc]
              have hlen : ((s.buffer ++ results).length : Int)
                  = (s.buffer.length : Int) + (results.length : Int) := by
                simp
              have hm1 : (s.startAt + rc - ((s.buffer ++ results).length : Int)).toNat ≤ a := by
                omega
              have hm2 : (s.startAt + rc - ((s.buffer ++ results).length : Int)).toNat ≤ b := by
                omega
              rw [ih { s with buffer := s.buffer ++ results, pageNo := s.pageNo + 1 } b hm1 hm2]
    · cases n2 with
      | zero => simp [growAux, hg]
      | succ b => simp [growAux, hg]

/-- Helper: the growth loop never touches the display offset. -/
theorem growAux_startAt (f : Fetcher) (rc : Int) :
    ∀ (fuel : Nat) (s s2 : Session) (pages : List Int),
      growAux f rc fuel s = Except.ok (s2, pages) → s2.startAt = s.startAt := by
  intro fuel
  induction fuel with
  | zero =>
    intro s s2 pages h
    simp only [growAux, Except.ok.injEq, Prod.mk.injEq] at h
    rw [← h.1]
  | succ a ih =>
    intro s s2 pages h
    by_cases hg : (s.buffer.length : Int) < s.startAt + rc
    · simp only [growAux, if_pos hg] at h
      cases hf : f s.query s.timeRange s.site s.pageNo with
      | error e => rw [hf] at h; cases h
      | ok results =>
        rw [hf] at h
        dsimp only at h
        by_cases hres : results.length = 0
        · rw [if_pos hres] at h
          simp only [Except.ok.injEq, Prod.mk.injEq] at h
          rw [← h.1]
        · rw [if_neg hres] at h
          by_cases hrc : rc = 0
          · rw [if_pos hrc] at h
            simp only [Except.ok.injEq, Prod.mk.injEq] at h
            rw [← h.1]
          · rw [if_neg hrc] at h
            cases hrec : growAux f rc a { s with buffer := s.buffer ++ results, pageNo := s.pageNo + 1 } with
            | error e => rw [hrec] at h; cases h
            | ok p =>
              obtain ⟨s3, pg⟩ := p
              rw [hrec] at h
              dsimp only at h
              simp only [Except.ok.injEq, Prod.mk.injEq] at h
              rw [← h.1]
              exact ih { s with buffer := s.buffer ++ results, pageNo := s.pageNo + 1 } s3 pg hrec
    · simp only [growAux, if_neg hg, Except.ok.injEq, Prod.mk.injEq] at h
      rw [← h.1]

/-- Helper: grow never touches the display offset. -/
theorem grow_startAt (f : Fetcher) (rc : Int) (s s2 : Session) (pages : List Int)
    (h : grow f rc s = Except.ok (s2, pages)) : s2.startAt = s.startAt :=
  growAux_startAt f rc _ s s2 pages h

/-- C5 (evaluation of the code at the failing configuration): with a zero
configured result count, the growth step of runSearch performs no
dispatcher call at all from the initial window (offset 0, empty buffer) —
its guard, buffer length below startAt plus zero, is false immediately —
so the buffer stays empty and the fetched-page trace is empty, for every
dispatcher. The claim (and the spec) say exactly one page is fetched in
this mode; the unreachable zero-count break inside the Go loop shows that
intent but the loop guard prevents entry. -/
theorem grow_zero_count_no_fetch (f : Fetcher) (s : Session)
    (h1 : s.startAt = 0) (h2 : s.buffer = []) :
    grow f 0 s = Except.ok (s, []) := by
  unfold grow
  rw [h1, h2]
  simp [growAux]

/-- Witness for the C5 evaluation: a fresh session with a dispatcher that
does have a non-empty first page still fetches nothing under a zero
requested count. -/
theorem grow_zero_count_no_fetch_w :
    grow fetchOnePage 0 (initSession "test" "" "")
      = Except.ok (initSession "test" "" "", []) :=
  grow_zero_count_no_fetch fetchOnePage (initSession "test" "" "") rfl rfl

/-- C6 counterexample: with a dispatcher whose page 1 has one result and
all later pages are empty, and one requested result, the initial growth
from a fresh session fetches page 1; the first next command then fetches
page 3, which returns the empty list for the unchanged query, time range
and site; yet the second next command issues a further dispatcher call,
fetching page 4 for that same query and filters. The full fetch trace of
the two commands is pages 3 then 4, so an empty page does not stop later
calls for the same query/filter combination — the claim is false. -/
theorem session_refetch_after_empty_page_cex :
    grow fetchOnePage 1 scenarioStart = Except.ok (scenarioS1, [1])
      ∧ (runCommandsT fetchOnePage 1 scenarioS1 [Command.next, Command.next]).2 = [3, 4]
      ∧ fetchOnePage "golang" "" "" 3 = Except.ok [] :=
  ⟨rfl, rfl, rfl⟩

/-- C6 (amended): within a single buffer-growth call, a fetch that returns
an empty result list stops growth immediately — exactly one dispatcher
call happens in that growth call, no error is reported and the buffer is
unchanged. The session records nothing about the empty page, however, and
a later next-page command with the same query, time range and site issues
a new dispatcher call (see the counterexample trace). -/
theorem grow_stops_on_empty_page (f : Fetcher) (rc : Int) (s : Session)
    (hneed : (s.buffer.length : Int) < s.startAt + rc)
    (hempty : f s.query s.timeRange s.site s.pageNo = Except.ok []) :
    grow f rc s = Except.ok (s, [s.pageNo]) := by
  unfold grow
  have hpos : 0 < (s.startAt + rc - (s.buffer.length : Int)).toNat := by omega
  obtain ⟨k, hk⟩ : ∃ k, (s.startAt + rc - (s.buffer.length : Int)).toNat = k + 1 :=
    ⟨(s.startAt + rc - (s.buffer.length : Int)).toNat - 1, by omega⟩
  rw [hk]
  simp [growAux, hneed, hempty]

/-- Witness for the amended C6: one growth call on the page-3 state of the
scenario performs the single (empty) fetch of page 3 and stops without
error. -/
theorem grow_stops_on_empty_page_w :
    grow fetchOnePage 1 { scenarioS1 with startAt := 1, pageNo := 3 }
      = Except.ok ({ scenarioS1 with startAt := 1, pageNo := 3 }, [3]) :=
  grow_stops_on_empty_page fetchOnePage 1
    { scenarioS1 with startAt := 1, pageNo := 3 } (by decide) rfl

/-- C7: each interactive command that changes the query text, the site
filter, or (validly) the time range hands runSearch a session whose buffer
is empty, whose display offset is 0 and whose page number is 1 before the
next fetch; a time-range command with an invalid argument reports the
error and leaves the whole session state — query, buffer, offset and page
number — unchanged, without fetching. -/
theorem interactive_mutation_resets (rc : Int) (s : Session) (q w tr bad : String)
    (hval : validateTimeRange tr = true) (hbad : validateTimeRange bad = false) :
    step rc s (Command.newQuery q)
        = StepAction.fetch { s with query := q, startAt := 0, pageNo := 1, buffer := [] }
      ∧ step rc s (Command.siteFilter w)
        = StepAction.fetch { s with site := w, startAt := 0, pageNo := 1, buffer := [] }
      ∧ step rc s (Command.timeRange tr)
        = StepAction.fetch
            { s with timeRange := expandTimeRange tr, startAt := 0, pageNo := 1, buffer := [] }
      ∧ step rc s (Command.timeRange bad) = StepAction.stay s := by
  refine ⟨rfl, rfl, ?_, ?_⟩
  · simp [step, hval]
  · simp [step, hbad]

/-- Witness for C7 at a concrete session: a new query, a site change and a
valid shorthand time-range change each reset buffer, offset and page; the
invalid token fortnight leaves the session untouched. -/
theorem interactive_mutation_resets_w :
    step 10 sessionOneResult (Command.newQuery "rust")
        = StepAction.fetch
            { sessionOneResult with query := "rust", startAt := 0, pageNo := 1, buffer := [] }
      ∧ step 10 sessionOneResult (Command.siteFilter "example.com")
        = StepAction.fetch
            { sessionOneResult with site := "example.com", startAt := 0, pageNo := 1, buffer := [] }
      ∧ step 10 sessionOneResult (Command.timeRange "w")
        = StepAction.fetch
            { sessionOneResult with
                timeRange := expandTimeRange "w", startAt := 0, pageNo := 1, buffer := [] }
      ∧ step 10 sessionOneResult (Command.timeRange "fortnight")
        = StepAction.stay sessionOneResult :=
  interactive_mutation_resets 10 sessionOneResult "rust" "example.com" "w" "fortnight"
    (by decide) (by decide)

/-- Helper: one interactive command keeps the display offset nonnegative
when the configured result count is nonnegative: previous-page clamps at
0, first-page sets 0, next-page adds the nonnegative count, the mutation
commands reset to 0, and every other command leaves it unchanged. -/
theorem step_startAt_nonneg (rc : Int) (s : Session) (c : Command)
    (hrc : 0 ≤ rc) (hs : 0 ≤ s.startAt) :
    match step rc s c with
    | StepAction.quit => True
    | StepAction.stay s1 => 0 ≤ s1.startAt
    | StepAction.fetch s1 => 0 ≤ s1.startAt := by
  cases c with
  | quit => trivial
  | help => exact hs
  | next =>
    simp only [step]
    by_cases h : s.startAt + rc ≥ (s.buffer.length : Int)
    · rw [if_pos h]
      show (0 : Int) ≤ s.startAt + rc
      omega
    · rw [if_neg h]
      show (0 : Int) ≤ s.startAt + rc
      omega
  | prev =>
    show (0 : Int) ≤ if s.startAt - rc < 0 then 0 else s.startAt - rc
    split <;> omega
  | first => simp [step]
  | toggleExpand => exact hs
  | toggleDebug => exact hs
  | timeRange arg =>
    simp only [step]
    by_cases h : validateTimeRange arg = true
    · rw [if_pos h]
    · rw [if_neg h]
      exact hs
  | siteFilter arg => simp [step]
  | copyUrl i => exact hs
  | showJson i => exact hs
  | openIndex i => exact hs
  | newQuery q => simp [step]

/-- C10: the display offset of an interactive session is never negative:
previous-page clamps the offset at 0 when it would go below the start,
first-page sets it to 0, next-page adds the configured result count, the
query, time-range and site mutations reset it to 0, every other command
leaves it unchanged, and the growth fetches triggered in between never
touch it; so from the offset 0 that runSearch starts with, any sequence of
interactive commands keeps the offset nonnegative. The nonnegative-count
hypothesis holds in every reachable interactive session: with a
nonpositive configured count the growth guard of runSearch (buffer length
below startAt plus the count) is false at once, the buffer stays empty,
and runSearch returns at its no-results check before the interactive loop
is ever entered, so an interactive session always runs with a positive
count. -/
theorem interactive_offset_nonneg (f : Fetcher) (rc : Int) (s : Session)
    (cs : List Command) (hrc : 0 ≤ rc) (hs : 0 ≤ s.startAt) :
    0 ≤ (runCommands f rc s cs).startAt := by
  unfold runCommands
  induction cs generalizing s with
  | nil => simpa [runCommandsT] using hs
  | cons c cs ih =>
    have hstep := step_startAt_nonneg rc s c hrc hs
    simp only [runCommandsT]
    cases hc : step rc s c with
    | quit => simpa using hs
    | stay s1 =>
      rw [hc] at hstep
      dsimp only at hstep
      exact ih s1 hstep
    | fetch s1 =>
      rw [hc] at hstep
      dsimp only at hstep
      dsimp only
      cases hg : grow f rc s1 with
      | error e => exact hstep
      | ok p =>
        obtain ⟨s2, pages⟩ := p
        dsimp only
        have h2 : s2.startAt = s1.startAt := grow_startAt f rc s1 s2 pages hg
        by_cases hb : s2.buffer.isEmpty
        · rw [if_pos hb]
          have h3 : 0 ≤ s2.startAt := by omega
          exact h3
        · rw [if_neg hb]
          have h3 : 0 ≤ s2.startAt := by omega
          exact ih s2 h3

/-- Witness for C10: a concrete two-command run with count 1 keeps the
offset nonnegative. -/
theorem interactive_offset_nonneg_w :
    0 ≤ (runCommands fetchOnePage 1 scenarioS1 [Command.next, Command.prev]).startAt :=
  interactive_offset_nonneg fetchOnePage 1 scenarioS1 [Command.next, Command.prev]
    (by decide) (by decide)
